import Mathlib

/-!
Verification development for the rdplauncher repository.

The embedding models the two core subsystems:
  * `internal/registry/registry.go` — a Windows-registry transaction manager
    (catalog construction, apply-with-backup, restore, remove, backup file).
  * `internal/service/service.go` — the service lifecycle orchestrator
    (Install / Remove / Start / Stop) with its compensating-rollback paths
    and the bounded status-poll loop.

The Windows registry is modelled as an association list from (hive root,
key path) to the key's list of named values; each stored value carries the
value type tag it was written with, mirroring what the real registry
stores.  Keys are modelled as independent entries (implicit creation of
intermediate keys by `RegCreateKey` is not modelled; no claim refers to
intermediate keys).  The external OS surfaces (service manager, file
system faults, registry permission failures) are modelled as explicit
fault environments passed to the operations, matching the error branches
in the Go source.
-/

namespace RDPLauncher

/-- Variant value carried by a registry `Entry` or read back from the
registry, modelling the Go `interface{}` values that appear in the
source: `string`, `uint32`, `uint64`, `[]byte`, JSON `float64` (produced
by `json.Unmarshal` into `interface{}`), and `nil`. -/
inductive GoVal where
  | str (s : String)
  | u32 (n : Nat)
  | u64 (n : Nat)
  | bytes (b : List Nat)
  | f64 (n : Nat)
  | vnil
  deriving DecidableEq, Repr

/-- Registry value-type constants from `golang.org/x/sys/windows/registry`. -/
def SZ : Nat := 1

/-- REG_EXPAND_SZ type tag. -/
def EXPAND_SZ : Nat := 2

/-- REG_BINARY type tag. -/
def BINARY : Nat := 3

/-- REG_DWORD type tag. -/
def DWORD : Nat := 4

/-- REG_QWORD type tag. -/
def QWORD : Nat := 11

/-- Hive handle constant `registry.LOCAL_MACHINE` (HKEY_LOCAL_MACHINE). -/
def LOCAL_MACHINE : Nat := 0x80000002

/-- Hive handle constant `registry.CURRENT_USER` (HKEY_CURRENT_USER). -/
def CURRENT_USER : Nat := 0x80000001

/-- A registry key identity: (hive root handle, key path). -/
abbrev RegKey := Nat × String

/-- A stored registry value: the type tag it was written with plus the data. -/
abbrev RegVal := Nat × GoVal

/-- The registry: an association list from keys to their named values.
Key presence in the list models key existence. -/
abbrev RegState := List (RegKey × List (String × RegVal))

/-- Go struct `registry.Entry`. -/
structure Entry where
  root : Nat
  path : String
  name : String
  value : GoVal
  type : Nat
  deriving DecidableEq, Repr

/-- Go struct `registry.Backup`. -/
structure Backup where
  entry : Entry
  existed : Bool
  deriving DecidableEq, Repr

/-- Go struct `registry.SerializableBackup` (the JSON wire form). -/
structure SBackup where
  rootKey : Nat
  path : String
  name : String
  value : GoVal
  type : Nat
  existed : Bool
  deriving DecidableEq, Repr

/-- Go struct `registry.Manager`. -/
structure Manager where
  entries : List Entry
  backupPath : String
  deriving DecidableEq, Repr

/-- Content of the backup file: a well-formed JSON list of records, or
malformed text that `json.Unmarshal` rejects. -/
inductive FileContent where
  | good (sbs : List SBackup)
  | bad
  deriving DecidableEq, Repr

/-- The world the registry manager acts on: the registry plus the backup
file (`none` = file absent, which is distinct from an empty list). -/
structure World where
  reg : RegState
  file : Option FileContent
  deriving DecidableEq, Repr

/-- The empty world: empty registry, no backup file. -/
def emptyWorld : World := ⟨[], none⟩

/-- Fault environment for registry / file-system operations.  Each field
models an error branch of the Go code: `CreateKey` failing (permission),
a `SetXxxValue` call failing, `DeleteValue` failing with an error other
than `ErrNotExist`, `DeleteKey` failing, and `SaveBackups` failing
(directory creation / marshal / write). -/
structure RegEnv where
  createKeyFails : Nat → String → Bool
  setValueFails : Nat → String → String → Bool
  deleteValueFails : Nat → String → String → Bool
  deleteKeyFails : Nat → String → Bool
  saveFails : Bool

/-- The fault-free environment: every OS call succeeds. -/
def noFaults : RegEnv :=
  ⟨fun _ _ => false, fun _ _ _ => false, fun _ _ _ => false, fun _ _ => false, false⟩

/-- Error taxonomy used by the registry manager's operations. -/
inductive RegErr where
  | permission
  | typeMismatch
  | unsupported
  | notFoundFile
  | parse
  | saveFailed
  | aggregate (n : Nat)
  deriving DecidableEq, Repr

/-- Look up a key in the registry. -/
def lookupKey (st : RegState) (k : RegKey) : Option (List (String × RegVal)) :=
  (st.find? (fun p => p.1 == k)).map (fun p => p.2)

/-- Does the key exist (can `OpenKey` succeed)? -/
def keyExists (st : RegState) (k : RegKey) : Bool :=
  (lookupKey st k).isSome

/-- Look up a named value inside a key's value list. -/
def lookName (vals : List (String × RegVal)) (n : String) : Option RegVal :=
  (vals.find? (fun p => p.1 == n)).map (fun p => p.2)

/-- Read the stored value named `n` under key `k`, with its stored type. -/
def getVal (st : RegState) (k : RegKey) (n : String) : Option RegVal :=
  (lookupKey st k).bind (fun vals => lookName vals n)

/-- Set (replace or append) a named value in a key's value list. -/
def setName (vals : List (String × RegVal)) (n : String) (v : RegVal) :
    List (String × RegVal) :=
  match vals with
  | [] => [(n, v)]
  | (m, w) :: rest => if m == n then (n, v) :: rest else (m, w) :: setName rest n v

/-- Apply `f` to the value list of key `k`, if the key exists. -/
def updKey (st : RegState) (k : RegKey)
    (f : List (String × RegVal) → List (String × RegVal)) : RegState :=
  st.map (fun p => if p.1 == k then (p.1, f p.2) else p)

/-- `RegCreateKey`: create the key if absent (appended empty), keep it if present. -/
def createKey (st : RegState) (k : RegKey) : RegState :=
  if keyExists st k then st else st ++ [(k, [])]

/-- Write a named value under an existing key (`RegSetValueEx` after the
key has been opened with write access). -/
def setVal (st : RegState) (k : RegKey) (n : String) (v : RegVal) : RegState :=
  updKey st k (fun vals => setName vals n v)

/-- Delete a named value from a key (no-op on the list if absent). -/
def delVal (st : RegState) (k : RegKey) (n : String) : RegState :=
  updKey st k (fun vals => vals.filter (fun p => p.1 != n))

/-- Delete a key outright. -/
def delKey (st : RegState) (k : RegKey) : RegState :=
  st.filter (fun p => p.1 != k)

/-- `NewManager` from `registry.go`: the fixed RDP entry catalog built from
(install path, server port, data directory).  `filepath.Join` on Windows
joins with a backslash. -/
def NewManager (installPath : String) (serverPort : Nat) (dataDir : String) : Manager :=
  { entries :=
      [ { root := LOCAL_MACHINE, path := "SOFTWARE\\RDPLauncher",
          name := "InstallPath", value := GoVal.str installPath, type := SZ },
        { root := LOCAL_MACHINE, path := "SOFTWARE\\RDPLauncher",
          name := "ServerPort", value := GoVal.u32 serverPort, type := DWORD },
        { root := LOCAL_MACHINE, path := "SOFTWARE\\RDPLauncher",
          name := "EnableLogging", value := GoVal.u32 1, type := DWORD },
        { root := LOCAL_MACHINE,
          path := "SOFTWARE\\Microsoft\\Windows NT\\CurrentVersion\\Terminal Server\\TSAppAllowList",
          name := "fDisabledAllowList", value := GoVal.u32 1, type := DWORD },
        { root := LOCAL_MACHINE,
          path := "SOFTWARE\\Policies\\Microsoft\\Windows NT\\Terminal Services",
          name := "fAllowUnlistedRemotePrograms", value := GoVal.u32 1, type := DWORD },
        { root := LOCAL_MACHINE,
          path := "SOFTWARE\\Microsoft\\Windows NT\\CurrentVersion\\Winlogon",
          name := "AutoAdminLogon", value := GoVal.str "0", type := SZ },
        { root := LOCAL_MACHINE,
          path := "SYSTEM\\CurrentControlSet\\Control\\Keyboard Layout",
          name := "IgnoreRemoteKeyboardLayout", value := GoVal.u32 1, type := DWORD },
        { root := LOCAL_MACHINE,
          path := "SYSTEM\\CurrentControlSet\\Control\\Network\\NewNetworkWindowOff",
          name := "", value := GoVal.str "", type := SZ },
        { root := CURRENT_USER, path := "SOFTWARE\\RDPLauncher\\User",
          name := "LastRun", value := GoVal.str "", type := SZ } ],
    backupPath := dataDir ++ "\\registry_backup.json" }

/-- Does the variant shape of `e.value` match the declared `e.type`?  This
is exactly the type-assertion discipline of `writeValue` in the source
(`GetStringValue` also reads `EXPAND_SZ`, so a string is acceptable for
both string kinds). -/
def valueMatchesType (e : Entry) : Bool :=
  match e.value with
  | GoVal.str _ => e.type == SZ || e.type == EXPAND_SZ
  | GoVal.u32 _ => e.type == DWORD
  | GoVal.u64 _ => e.type == QWORD
  | GoVal.bytes _ => e.type == BINARY
  | _ => false

/-- Well-formedness of a stored registry value: the data shape agrees with
the stored type tag (the only shapes the real registry can hold). -/
def wfRegVal : RegVal → Bool
  | (t, GoVal.str _) => t == SZ || t == EXPAND_SZ
  | (t, GoVal.u32 n) => t == DWORD && n < 2 ^ 32
  | (t, GoVal.u64 n) => t == QWORD && n < 2 ^ 64
  | (t, GoVal.bytes _) => t == BINARY
  | _ => false

/-- `readValue` from `registry.go`: read a value using the accessor for the
declared `valueType`, returning Go `nil` on any error.  The accessor
semantics follow `golang.org/x/sys/windows/registry`:
`GetStringValue` succeeds only on stored `SZ`/`EXPAND_SZ`,
`GetIntegerValue` on stored `DWORD`/`QWORD` (returning a `uint64` that the
source truncates with `uint32(val)` in the `DWORD` case), and
`GetBinaryValue` only on stored `BINARY`. -/
def readValue (vals : List (String × RegVal)) (name : String) (valueType : Nat) : GoVal :=
  match lookName vals name with
  | none => GoVal.vnil
  | some (t, v) =>
    if valueType == SZ || valueType == EXPAND_SZ then
      match v with
      | GoVal.str s => if t == SZ || t == EXPAND_SZ then GoVal.str s else GoVal.vnil
      | _ => GoVal.vnil
    else if valueType == DWORD then
      match v with
      | GoVal.u32 n => if t == DWORD then GoVal.u32 (n % 2 ^ 32) else GoVal.vnil
      | GoVal.u64 n => if t == QWORD then GoVal.u32 (n % 2 ^ 32) else GoVal.vnil
      | _ => GoVal.vnil
    else if valueType == QWORD then
      match v with
      | GoVal.u32 n => if t == DWORD then GoVal.u64 n else GoVal.vnil
      | GoVal.u64 n => if t == QWORD then GoVal.u64 n else GoVal.vnil
      | _ => GoVal.vnil
    else if valueType == BINARY then
      match v with
      | GoVal.bytes b => if t == BINARY then GoVal.bytes b else GoVal.vnil
      | _ => GoVal.vnil
    else GoVal.vnil

/-- `writeValue` from `registry.go`: type-switch on the declared value
type, failing with a type-mismatch error when the Go type assertion on
`value` fails, and with `unsupported` on an unknown type tag.  The
`SetXxxValue` call itself can fail through the fault environment. -/
def writeValue (env : RegEnv) (st : RegState) (k : RegKey) (name : String)
    (value : GoVal) (valueType : Nat) : RegState × Option RegErr :=
  if valueType == SZ then
    match value with
    | GoVal.str s =>
      if env.setValueFails k.1 k.2 name then (st, some RegErr.permission)
      else (setVal st k name (SZ, GoVal.str s), none)
    | _ => (st, some RegErr.typeMismatch)
  else if valueType == EXPAND_SZ then
    match value with
    | GoVal.str s =>
      if env.setValueFails k.1 k.2 name then (st, some RegErr.permission)
      else (setVal st k name (EXPAND_SZ, GoVal.str s), none)
    | _ => (st, some RegErr.typeMismatch)
  else if valueType == DWORD then
    match value with
    | GoVal.u32 n =>
      if env.setValueFails k.1 k.2 name then (st, some RegErr.permission)
      else (setVal st k name (DWORD, GoVal.u32 n), none)
    | _ => (st, some RegErr.typeMismatch)
  else if valueType == QWORD then
    match value with
    | GoVal.u64 n =>
      if env.setValueFails k.1 k.2 name then (st, some RegErr.permission)
      else (setVal st k name (QWORD, GoVal.u64 n), none)
    | _ => (st, some RegErr.typeMismatch)
  else if valueType == BINARY then
    match value with
    | GoVal.bytes b =>
      if env.setValueFails k.1 k.2 name then (st, some RegErr.permission)
      else (setVal st k name (BINARY, GoVal.bytes b), none)
    | _ => (st, some RegErr.typeMismatch)
  else (st, some RegErr.unsupported)

/-- The backup-snapshot phase of `create` from `registry.go`: open the
key read-only — `Existed` is set iff the open succeeds — and read the
original value only when the value name is non-empty. -/
def backupOf (st : RegState) (e : Entry) : Backup :=
  match lookupKey st (e.root, e.path) with
  | some vals =>
    if e.name != "" then
      { entry := { e with value := readValue vals e.name e.type }, existed := true }
    else { entry := e, existed := true }
  | none => { entry := e, existed := false }

/-- `create` from `registry.go`: snapshot the entry's pre-state, then
create-or-open the key with write access and write the value (skipped
for an empty value name).  Returns the updated registry, the backup, and
the error if any step failed. -/
def create (env : RegEnv) (st : RegState) (e : Entry) : RegState × Backup × Option RegErr :=
  let k : RegKey := (e.root, e.path)
  let backup : Backup := backupOf st e
  if env.createKeyFails e.root e.path then (st, backup, some RegErr.permission)
  else
    let st1 := createKey st k
    if e.name != "" then
      match writeValue env st1 k e.name e.value e.type with
      | (st2, none) => (st2, backup, none)
      | (st2, some err) => (st2, backup, some err)
    else (st1, backup, none)

/-- The entry loop of `CreateAll`: process each entry in order; on error
record it (returned as a count) and continue WITHOUT appending the
backup; on success append the backup. -/
def createLoop (env : RegEnv) (st : RegState) : List Entry → RegState × List Backup × Nat
  | [] => (st, [], 0)
  | e :: es =>
    let (st1, b, err) := create env st e
    let (st2, bs, n) := createLoop env st1 es
    match err with
    | some _ => (st2, bs, n + 1)
    | none => (st2, b :: bs, n)

/-- Convert a `Backup` to its JSON wire form (`SaveBackups` conversion loop). -/
def toSerializable (b : Backup) : SBackup :=
  { rootKey := b.entry.root, path := b.entry.path, name := b.entry.name,
    value := b.entry.value, type := b.entry.type, existed := b.existed }

/-- `SaveBackups`: ensure the backup directory exists and write the JSON
file; any of those steps failing is the `saveFails` fault. -/
def SaveBackups (env : RegEnv) (w : World) (backups : List Backup) : World × Option RegErr :=
  if env.saveFails then (w, some RegErr.saveFailed)
  else ({ w with file := some (FileContent.good (backups.map toSerializable)) }, none)

/-- Standard base64 alphabet, for the `[]byte`-to-JSON-string conversion. -/
def b64Char (n : Nat) : Char :=
  "ABCDEFGHIJKLMNOPQRSTUVWXYZabcdefghijklmnopqrstuvwxyz0123456789+/".toList.getD n 'A'

/-- Base64-encode a byte list the way `encoding/json` encodes `[]byte`. -/
def b64Chars : List Nat → List Char
  | [] => []
  | [a] => [b64Char (a % 256 / 4), b64Char (a % 256 % 4 * 16), '=', '=']
  | [a, b] =>
    [b64Char (a % 256 / 4), b64Char (a % 256 % 4 * 16 + b % 256 / 16),
     b64Char (b % 256 % 16 * 4), '=']
  | a :: b :: c :: rest =>
    [b64Char (a % 256 / 4), b64Char (a % 256 % 4 * 16 + b % 256 / 16),
     b64Char (b % 256 % 16 * 4 + c % 256 / 64), b64Char (c % 256 % 64)] ++ b64Chars rest

/-- What a Go value becomes after a `json.Marshal` / `json.Unmarshal`
round trip into an `interface{}` field: numbers come back as `float64`
(exactly representable for the magnitudes this program writes), byte
slices come back as base64 strings, strings and `nil` survive. -/
def jsonRound : GoVal → GoVal
  | GoVal.str s => GoVal.str s
  | GoVal.u32 n => GoVal.f64 n
  | GoVal.u64 n => GoVal.f64 n
  | GoVal.bytes b => GoVal.str (String.mk (b64Chars b))
  | GoVal.f64 n => GoVal.f64 n
  | GoVal.vnil => GoVal.vnil

/-- Convert a loaded JSON record back to a `Backup` (`LoadBackups`
conversion loop); the `interface{}` value field carries the JSON shape. -/
def toBackup (sb : SBackup) : Backup :=
  { entry := { root := sb.rootKey, path := sb.path, name := sb.name,
               value := jsonRound sb.value, type := sb.type },
    existed := sb.existed }

/-- `LoadBackups`: fails with a not-found error when the file is absent
(the `os.Stat` check) and a parse error when `json.Unmarshal` rejects it. -/
def LoadBackups (w : World) : Except RegErr (List Backup) :=
  match w.file with
  | none => Except.error RegErr.notFoundFile
  | some FileContent.bad => Except.error RegErr.parse
  | some (FileContent.good sbs) => Except.ok (sbs.map toBackup)

/-- `DeleteBackupFile`: remove the file; absence is not an error. -/
def DeleteBackupFile (w : World) : World :=
  { w with file := none }

/-- `removeValue` from `registry.go`: open the key with write access
(failure to open is swallowed — "key doesn't exist"), delete the value;
`ErrNotExist` from `DeleteValue` is not an error. -/
def removeValue (env : RegEnv) (st : RegState) (root : Nat) (path name : String) :
    RegState × Option RegErr :=
  match lookupKey st (root, path) with
  | none => (st, none)
  | some _ =>
    if env.deleteValueFails root path name then (st, some RegErr.permission)
    else (delVal st (root, path) name, none)

/-- `removeEmptyKey` from `registry.go`: skipped without error when the
key does not exist, when reading the value names fails, or when the key
still holds values; otherwise the key is deleted. -/
def removeEmptyKey (env : RegEnv) (st : RegState) (root : Nat) (path : String) :
    RegState × Option RegErr :=
  match lookupKey st (root, path) with
  | none => (st, none)
  | some vals =>
    if vals.length > 0 then (st, none)
    else if env.deleteKeyFails root path then (st, some RegErr.permission)
    else (delKey st (root, path), none)

/-- `restore` from `registry.go` (single backup): if the entry did not
exist, delete the named value (nothing for an empty name); if it existed,
create-or-open the key and write the original value back only when a
value was named AND the recorded original value is non-nil. -/
def restore (env : RegEnv) (st : RegState) (b : Backup) : RegState × Option RegErr :=
  if !b.existed then
    if b.entry.name != "" then removeValue env st b.entry.root b.entry.path b.entry.name
    else (st, none)
  else if env.createKeyFails b.entry.root b.entry.path then (st, some RegErr.permission)
  else
    let st1 := createKey st (b.entry.root, b.entry.path)
    if b.entry.name != "" && !(b.entry.value == GoVal.vnil) then
      writeValue env st1 (b.entry.root, b.entry.path) b.entry.name b.entry.value b.entry.type
    else (st1, none)

/-- The backup loop of `Restore`: per-backup failures are collected (as a
count), never fail-fast. -/
def restoreLoop (env : RegEnv) (st : RegState) : List Backup → RegState × Nat
  | [] => (st, 0)
  | b :: bs =>
    let (st1, err) := restore env st b
    let (st2, n) := restoreLoop env st1 bs
    (st2, n + if err.isSome then 1 else 0)

/-- `Restore` from `registry.go`: restore every backup, returning an
aggregate error carrying the failure count when any failed. -/
def Restore (env : RegEnv) (st : RegState) (backups : List Backup) :
    RegState × Option RegErr :=
  let (st1, n) := restoreLoop env st backups
  if n > 0 then (st1, some (RegErr.aggregate n)) else (st1, none)

/-- `CreateAll` from `registry.go`: process all entries, then save the
backups that were produced regardless of per-entry failures.  A save
failure is returned immediately (with the backups); otherwise an
aggregate error is returned when any entry failed, and the backup set is
always returned. -/
def CreateAll (env : RegEnv) (m : Manager) (w : World) :
    World × List Backup × Option RegErr :=
  let (st, backups, nerrs) := createLoop env w.reg m.entries
  let (w1, serr) := SaveBackups env { w with reg := st } backups
  match serr with
  | some e => (w1, backups, some e)
  | none =>
    if nerrs > 0 then (w1, backups, some (RegErr.aggregate nerrs))
    else (w1, backups, none)

/-- Is this path one the service considers its own (`serviceSpecificPaths`)? -/
def serviceSpecificPath (p : String) : Bool :=
  p == "SOFTWARE\\RDPLauncher" || p == "SOFTWARE\\RDPLauncher\\User"

/-- The no-backup fallback loop of `RemoveAll`: delete only the named
values of the catalog's own entries, counting failures. -/
def removeValuesLoop (env : RegEnv) (st : RegState) : List Entry → RegState × Nat
  | [] => (st, 0)
  | e :: es =>
    if e.name != "" then
      let (st1, err) := removeValue env st e.root e.path e.name
      let (st2, n) := removeValuesLoop env st1 es
      (st2, n + if err.isSome then 1 else 0)
    else removeValuesLoop env st es

/-- The empty-key pruning loop of `RemoveAll`: each distinct
(root, path) of a catalog entry whose path is service-specific is pruned
once (`processedPaths` de-duplication), counting failures. -/
def pruneLoop (env : RegEnv) (st : RegState) (seen : List RegKey) :
    List Entry → RegState × Nat
  | [] => (st, 0)
  | e :: es =>
    if !(seen.contains (e.root, e.path)) && serviceSpecificPath e.path then
      let (st1, err) := removeEmptyKey env st e.root e.path
      let (st2, n) := pruneLoop env st1 ((e.root, e.path) :: seen) es
      (st2, n + if err.isSome then 1 else 0)
    else pruneLoop env st seen es

/-- `RemoveAll` from `registry.go`: load the backups — on any load error
(absent file OR malformed file) fall back to best-effort deletion of the
catalog's own named values, and the load error itself is NOT recorded;
on success run `Restore` (its aggregate counts as one collected error).
Then prune empty service-specific keys, delete the backup file, and
return an aggregate error iff any sub-step failure was collected. -/
def RemoveAll (env : RegEnv) (m : Manager) (w : World) : World × Option RegErr :=
  let (st1, n1) :=
    match LoadBackups w with
    | Except.error _ => removeValuesLoop env w.reg m.entries
    | Except.ok backups =>
      match Restore env w.reg backups with
      | (st, none) => (st, 0)
      | (st, some _) => (st, 1)
  let (st2, n2) := pruneLoop env st1 [] m.entries
  let w2 := DeleteBackupFile { w with reg := st2 }
  if n1 + n2 > 0 then (w2, some (RegErr.aggregate (n1 + n2))) else (w2, none)

/-- Possible parse failures of Go `strconv.ParseUint`. -/
inductive ParseFail where
  | notNumeric
  | outOfRange
  deriving DecidableEq, Repr

/-- Is `s` a non-empty string of decimal digits (what base-10 `ParseUint`
accepts: no sign, no underscores outside base 0)? -/
def isDecDigits (s : String) : Bool :=
  s.length != 0 && s.toList.all (fun c => c.isDigit)

/-- Numeric value of a decimal digit string. -/
def digitsToNat (s : String) : Nat :=
  s.toList.foldl (fun n c => n * 10 + (c.toNat - 48)) 0

/-- Go `strconv.ParseUint(s, 10, 32)`: returns `(0, ErrSyntax)` on a
non-numeric string and `(2^32 - 1, ErrRange)` — the maximum magnitude,
NOT zero — on a numeric string that overflows 32 bits. -/
def goParseUint32 (s : String) : Nat × Option ParseFail :=
  if isDecDigits s then
    let n := digitsToNat s
    if n < 2 ^ 32 then (n, none) else (2 ^ 32 - 1, some ParseFail.outOfRange)
  else (0, some ParseFail.notNumeric)

/-- The configuration values `config.New()` supplies to the orchestrator
(the config package is an external collaborator; its values are inputs
here).  `ServerPort` is a string, parsed inside `Install`/`Remove`. -/
structure Config where
  installPath : String
  serverPort : String
  dataDirectory : String
  deriving DecidableEq, Repr

/-- Build the registry manager exactly the way `Install` / `Remove` do:
`port, _ := strconv.ParseUint(cfg.ServerPort, 10, 32)` with the error
DISCARDED, then `NewManager(cfg.InstallPath, uint32(port), cfg.DataDirectory)`. -/
def managerOf (cfg : Config) : Manager :=
  NewManager cfg.installPath (goParseUint32 cfg.serverPort).1 cfg.dataDirectory

/-- Observed service states (`svc.State`); `unknown` is the zero value of
`svc.Status` returned alongside a failed `Control` call. -/
inductive SvcState where
  | unknown
  | stopped
  | startPending
  | stopPending
  | running
  deriving DecidableEq, Repr

/-- How the poll loop in `Remove` / `Stop` exited. -/
inductive PollExit where
  | reachedStopped
  | timedOut
  | queryError
  deriving DecidableEq, Repr

/-- The fixed sleep between status queries: 500 ms. -/
def stopPollIntervalMs : Nat := 500

/-- The poll deadline: 30 s after the stop request. -/
def stopPollDeadlineMs : Nat := 30000

/-- The status-poll loop shared by `Remove` and `Stop`:
`for status.State != svc.Stopped { if time.Now().After(timeout) {...};
time.Sleep(500ms); status = s.Query() }`.  Time is modelled in
milliseconds elapsed since the stop request (`t`), advancing by the fixed
interval per iteration; `query i` is the result of the i-th `Query` call
(`none` models a query error).  The definition is by well-founded
recursion on the remaining time budget, which is the termination argument
for the loop itself: it always exits with one of the three outcomes. -/
def pollLoop (query : Nat → Option SvcState) (i t : Nat) (status : SvcState) :
    SvcState × PollExit :=
  if status = SvcState.stopped then (status, PollExit.reachedStopped)
  else if t > stopPollDeadlineMs then (status, PollExit.timedOut)
  else
    match query i with
    | none => (status, PollExit.queryError)
    | some s => pollLoop query (i + 1) (t + stopPollIntervalMs) s
termination_by stopPollDeadlineMs + 1 - t
decreasing_by simp_all [stopPollDeadlineMs, stopPollIntervalMs]; omega

/-- Observable calls the orchestrator makes against its collaborators. -/
inductive Ev where
  | removeAllCall
  | createServiceCall
  | startServiceCall
  | controlStopCall
  | deleteServiceCall
  deriving DecidableEq, Repr

/-- Fault environment for the service-manager steps of `Install`. -/
structure SvcEnv where
  exeFails : Bool
  mkdirFails : Bool
  connectFails : Bool
  serviceExists : Bool
  createServiceFails : Bool
  startFails : Bool
  deriving DecidableEq, Repr

/-- Fatal errors `Install` can return. -/
inductive InstallErr where
  | exePath
  | mkdirFailed
  | connection
  | alreadyExists
  | creation
  deriving DecidableEq, Repr

/-- `Install` from `service.go`: resolve the executable, ensure the data
directory, build the catalog (parse errors on the port are ignored) and
run `CreateAll` (failures only logged); then connect to the service
manager, check for an existing service, and create the service — each of
those three failing invokes `RemoveAll` as compensating rollback (its
result ignored) and returns the fatal error.  A failed first start is
only logged: `Install` still returns success. -/
def Install (renv : RegEnv) (senv : SvcEnv) (cfg : Config) (w : World) :
    World × List Ev × Option InstallErr :=
  if senv.exeFails then (w, [], some InstallErr.exePath)
  else if senv.mkdirFails then (w, [], some InstallErr.mkdirFailed)
  else
    let m := managerOf cfg
    let (w1, _backups, _cerr) := CreateAll renv m w
    if senv.connectFails then
      ((RemoveAll renv m w1).1, [Ev.removeAllCall], some InstallErr.connection)
    else if senv.serviceExists then
      ((RemoveAll renv m w1).1, [Ev.removeAllCall], some InstallErr.alreadyExists)
    else if senv.createServiceFails then
      ((RemoveAll renv m w1).1, [Ev.removeAllCall], some InstallErr.creation)
    else
      (w1, [Ev.createServiceCall, Ev.startServiceCall], none)

/-- Fault environment for `Remove`'s service-manager steps; `query`
drives the status poll loop, `initialState` is the status returned by the
stop control. -/
structure RemoveEnv where
  connectFails : Bool
  openFails : Bool
  controlStopFails : Bool
  deleteServiceFails : Bool
  initialState : SvcState
  query : Nat → Option SvcState

/-- Fatal errors `Remove` can return. -/
inductive RemoveErr where
  | connection
  | notInstalled
  | deleteFailed
  deriving DecidableEq, Repr

/-- `Remove` from `service.go`: connect and open (both fatal on failure);
issue the stop control (best-effort: failure leaves the zero status);
poll for Stopped with the 500 ms / 30 s loop, its outcome only logged;
delete the service — failure here is fatal and returned, and the registry
cleanup is NOT reached; otherwise run `RemoveAll`, whose failure is only
a warning: `Remove` returns success. -/
def Remove (renv : RegEnv) (senv : RemoveEnv) (cfg : Config) (w : World) :
    World × List Ev × Option RemoveErr :=
  if senv.connectFails then (w, [], some RemoveErr.connection)
  else if senv.openFails then (w, [], some RemoveErr.notInstalled)
  else
    let status0 := if senv.controlStopFails then SvcState.unknown else senv.initialState
    let _poll := pollLoop senv.query 0 0 status0
    if senv.deleteServiceFails then (w, [Ev.controlStopCall], some RemoveErr.deleteFailed)
    else
      let m := managerOf cfg
      ((RemoveAll renv m w).1,
       [Ev.controlStopCall, Ev.deleteServiceCall, Ev.removeAllCall], none)

/-- Fault environment for `Stop`. -/
structure StopEnv where
  connectFails : Bool
  openFails : Bool
  controlFails : Bool
  initialState : SvcState
  query : Nat → Option SvcState

/-- Outcomes of `Stop`. -/
inductive StopRes where
  | ok
  | connectionFailed
  | openFailed
  | controlFailed
  | timeoutErr
  | queryFailed
  deriving DecidableEq, Repr

/-- `Stop` from `service.go`: connect, open, send the stop control (each
failure fatal), then poll for Stopped with the 500 ms / 30 s loop;
reaching Stopped is success, deadline expiry is the Timeout error, a
failed status query is its own error. -/
def Stop (senv : StopEnv) : StopRes :=
  if senv.connectFails then StopRes.connectionFailed
  else if senv.openFails then StopRes.openFailed
  else if senv.controlFails then StopRes.controlFailed
  else
    match (pollLoop senv.query 0 0 senv.initialState).2 with
    | PollExit.reachedStopped => StopRes.ok
    | PollExit.timedOut => StopRes.timeoutErr
    | PollExit.queryError => StopRes.queryFailed

/-- The example configuration of the spec: install path `C:\App`, server
port string `"8085"`, data directory `C:\Data`. -/
def cfg0 : Config := ⟨"C:\\App", "8085", "C:\\Data"⟩

/-- A configuration whose port string is not numeric. -/
def cfgBadPort : Config := ⟨"C:\\App", "abc", "C:\\Data"⟩

/-- A configuration whose port string is numeric but exceeds 32 bits. -/
def cfgHugePort : Config := ⟨"C:\\App", "4294967296", "C:\\Data"⟩

/-- Service environment: every service-manager step succeeds. -/
def svcOk : SvcEnv := ⟨false, false, false, false, false, false⟩

/-- Service environment: `CreateService` fails, everything else succeeds. -/
def svcCreateFails : SvcEnv := ⟨false, false, false, false, true, false⟩

/-- The key of the service's own configuration subtree. -/
def rdpKey : RegKey := (LOCAL_MACHINE, "SOFTWARE\\RDPLauncher")

/-- First catalog entry (InstallPath) for the example configuration. -/
def entryInstallPath : Entry :=
  { root := LOCAL_MACHINE, path := "SOFTWARE\\RDPLauncher",
    name := "InstallPath", value := GoVal.str "C:\\App", type := SZ }

/-- Second catalog entry (ServerPort) for the example configuration. -/
def entryServerPort : Entry :=
  { root := LOCAL_MACHINE, path := "SOFTWARE\\RDPLauncher",
    name := "ServerPort", value := GoVal.u32 8085, type := DWORD }

/-- Registry environment that denies `CreateKey` on the TSAppAllowList
key only (a permission failure on one catalog entry). -/
def failTSA : RegEnv :=
  { noFaults with
    createKeyFails := fun _ p =>
      p == "SOFTWARE\\Microsoft\\Windows NT\\CurrentVersion\\Terminal Server\\TSAppAllowList" }

/-- A world whose `SOFTWARE\RDPLauncher` key holds a pre-existing
`ServerPort` value of binary type (a type different from the catalog's
declared DWORD). -/
def wBinaryPre : World :=
  ⟨[(rdpKey, [("ServerPort", (BINARY, GoVal.bytes [1, 2, 3]))])], none⟩

/-- A world whose `SOFTWARE\RDPLauncher` key holds a pre-existing
`ServerPort` DWORD value `77` (type matching the catalog entry). -/
def wDwordPre : World :=
  ⟨[(rdpKey, [("ServerPort", (DWORD, GoVal.u32 77))])], none⟩

/-- The round-trip experiment of the spec's testable properties: run
`CreateAll` (ApplyAll) and then `Restore` on the backup set it produced,
returning the final registry. -/
def applyThenRestore (env : RegEnv) (m : Manager) (w : World) : RegState :=
  (Restore env (CreateAll env m w).1.reg (CreateAll env m w).2.1).1

/-- Remove environment: stop and delete succeed, service reports Stopped
immediately. -/
def remOk : RemoveEnv :=
  ⟨false, false, false, false, SvcState.stopped, fun _ => some SvcState.stopped⟩

/-- Remove environment: deleting the service definition fails. -/
def remDeleteFails : RemoveEnv :=
  ⟨false, false, false, true, SvcState.stopped, fun _ => some SvcState.stopped⟩

/-- Stop environment: the service stays in StopPending forever. -/
def stopPendingForever : StopEnv :=
  ⟨false, false, false, SvcState.stopPending, fun _ => some SvcState.stopPending⟩

section Theorems

/-- C6 counterexample: applied to the spec's example configuration, the
catalog constructor produces NO entry with key path `SOFTWARE\App` — in
particular not the claimed `{LocalMachine, SOFTWARE\App, ServerPort,
8085, DWORD}` entry.  The ServerPort entry lives under
`SOFTWARE\RDPLauncher`, which does not depend on the install path. -/
theorem C6_counterexample :
    ¬ ({ root := LOCAL_MACHINE, path := "SOFTWARE\\App", name := "ServerPort",
         value := GoVal.u32 8085, type := DWORD : Entry }
       ∈ (NewManager "C:\\App" 8085 "C:\\Data").entries) ∧
    (NewManager "C:\\App" 8085 "C:\\Data").entries.all
      (fun e => e.path != "SOFTWARE\\App") = true := by
  decide

/-- C6 (amended): the catalog built from the configuration
`{installPath := "C:\App", serverPort := 8085, dataDirectory := "C:\Data"}`
contains the entry `{hive := LocalMachine, keyPath := "SOFTWARE\RDPLauncher",
valueName := "ServerPort", value := 8085, type := DWORD}`. -/
theorem C6_catalog_server_port :
    { root := LOCAL_MACHINE, path := "SOFTWARE\\RDPLauncher", name := "ServerPort",
      value := GoVal.u32 8085, type := DWORD : Entry }
      ∈ (NewManager "C:\\App" 8085 "C:\\Data").entries := by
  decide

/-- C1 counterexample: from a clean (empty) registry, an `Install` whose
`CreateService` step fails does invoke the rollback and return the
creation error, yet the resulting registry does NOT equal the pre-Install
state: the `SOFTWARE\RDPLauncher` key still holds `ServerPort = 8085`
(its backup recorded `existed = true` with nil original value because the
key had just been created by the catalog's first entry), and the keys
created for the non-service-owned catalog paths remain. -/
theorem C1_counterexample :
    (Install noFaults svcCreateFails cfg0 emptyWorld).2.2 = some InstallErr.creation ∧
    (Install noFaults svcCreateFails cfg0 emptyWorld).1.reg ≠ emptyWorld.reg ∧
    getVal (Install noFaults svcCreateFails cfg0 emptyWorld).1.reg rdpKey "ServerPort"
      = some (DWORD, GoVal.u32 8085) := by
  decide

/-- C2 counterexample: for the catalog's InstallPath entry, whose key
does not exist in the empty registry, ApplyAll followed by Restore on the
produced backup set does NOT leave the key absent: the key created by
ApplyAll survives Restore (only the named value is deleted). -/
theorem C2_counterexample :
    keyExists
      (Restore noFaults
        (CreateAll noFaults ⟨[entryInstallPath], "p"⟩ emptyWorld).1.reg
        (CreateAll noFaults ⟨[entryInstallPath], "p"⟩ emptyWorld).2.1).1
      rdpKey = true := by
  decide

/-- C3 counterexample: when the TSAppAllowList entry fails with a
permission error, `CreateAll` over the 9-entry catalog returns only 8
backups — the failed entry's backup is NOT appended, refuting the
one-Backup-per-Entry claim. -/
theorem C3_counterexample :
    (CreateAll failTSA (managerOf cfg0) emptyWorld).2.1.length = 8 ∧
    (managerOf cfg0).entries.length = 9 := by
  decide

/-- C5 counterexample: a pre-existing `ServerPort` value of BINARY type
(value `[1,2,3]`) under `SOFTWARE\RDPLauncher` is read back as nil by the
DWORD accessor during backup, so after ApplyAll of the ServerPort entry
and Restore of its backup set the key holds the NEW value `8085`, not the
original `V`. -/
theorem C5_counterexample :
    getVal wBinaryPre.reg rdpKey "ServerPort" = some (BINARY, GoVal.bytes [1, 2, 3]) ∧
    getVal
      (Restore noFaults
        (CreateAll noFaults ⟨[entryServerPort], "p"⟩ wBinaryPre).1.reg
        (CreateAll noFaults ⟨[entryServerPort], "p"⟩ wBinaryPre).2.1).1
      rdpKey "ServerPort" = some (DWORD, GoVal.u32 8085) := by
  decide

/-- C9 counterexample: the port string `"4294967296"` does not parse as a
decimal unsigned 32-bit integer, yet Go's `ParseUint` returns the maximum
magnitude `2^32 - 1` on range errors, so the catalog is built with a
ServerPort of `4294967295`, not `0`. -/
theorem C9_counterexample :
    (goParseUint32 "4294967296").2 = some ParseFail.outOfRange ∧
    (managerOf cfgHugePort).entries.get? 1
      = some { root := LOCAL_MACHINE, path := "SOFTWARE\\RDPLauncher",
               name := "ServerPort", value := GoVal.u32 4294967295, type := DWORD } ∧
    GoVal.u32 4294967295 ≠ GoVal.u32 0 := by
  decide

/-- C10 (confirmed): with a malformed backup file, `RemoveAll` behaves
exactly as with an absent file — it deletes only the catalog's own named
values, restores nothing, and still deletes the backup file at the end
(the malformed backup is lost); and `RemoveAll` never returns a
ParseError to the caller (its result is either success or an aggregate
error). -/
theorem C10_malformed_backup (env : RegEnv) (m : Manager) (w : World) :
    RemoveAll env m { w with file := some FileContent.bad }
      = RemoveAll env m { w with file := none } ∧
    (RemoveAll env m { w with file := some FileContent.bad }).1.file = none ∧
    ∀ w2 : World, (RemoveAll env m w2).2 ≠ some RegErr.parse := by
  refine ⟨?_, ?_, ?_⟩
  · simp [RemoveAll, LoadBackups, DeleteBackupFile]
  · simp only [RemoveAll, LoadBackups, DeleteBackupFile]
    split <;> simp
  · intro w2
    simp only [RemoveAll]
    split <;> simp

/-- C8 (confirmed): in `Remove`, once the service manager is reached and
the service opened, a failed service deletion is fatal — the error is
returned, the registry cleanup (`RemoveAll`) is not reached and the world
is untouched; after a successful deletion, `Remove` calls `RemoveAll` and
returns success whatever that registry cleanup does (any `RemoveAll`
failure is only a logged warning). -/
theorem C8_remove_error_policy (renv : RegEnv) (senv : RemoveEnv) (cfg : Config)
    (w : World) (hc : senv.connectFails = false) (ho : senv.openFails = false) :
    (senv.deleteServiceFails = true →
      (Remove renv senv cfg w).2.2 = some RemoveErr.deleteFailed ∧
      Ev.removeAllCall ∉ (Remove renv senv cfg w).2.1 ∧
      (Remove renv senv cfg w).1 = w) ∧
    (senv.deleteServiceFails = false →
      (Remove renv senv cfg w).2.2 = none ∧
      Ev.removeAllCall ∈ (Remove renv senv cfg w).2.1) := by
  constructor
  · intro hd
    simp [Remove, hc, ho, hd]
  · intro hd
    simp [Remove, hc, ho, hd]

/-- Witness for C8 at a concrete input: service deletion fails with every
collaborator otherwise healthy. -/
theorem C8_remove_error_policy_witness :
    (Remove noFaults remDeleteFails cfg0 emptyWorld).2.2 = some RemoveErr.deleteFailed ∧
    Ev.removeAllCall ∉ (Remove noFaults remDeleteFails cfg0 emptyWorld).2.1 ∧
    (Remove noFaults remDeleteFails cfg0 emptyWorld).1 = emptyWorld :=
  (C8_remove_error_policy noFaults remDeleteFails cfg0 emptyWorld rfl rfl).1 rfl

/-- The poll loop returns immediately once the observed state is Stopped. -/
theorem pollLoop_stopped (q : Nat → Option SvcState) (i t : Nat) :
    pollLoop q i t SvcState.stopped = (SvcState.stopped, PollExit.reachedStopped) := by
  rw [pollLoop]
  simp

/-- If every status query keeps answering StopPending, the poll loop
exits with a timeout — it cannot run forever. -/
theorem pollLoop_pending_timesOut (q : Nat → Option SvcState)
    (hq : ∀ i, q i = some SvcState.stopPending) :
    ∀ (n i t : Nat) (s : SvcState), stopPollDeadlineMs + 1 - t ≤ n →
      s ≠ SvcState.stopped → (pollLoop q i t s).2 = PollExit.timedOut := by
  intro n
  induction n with
  | zero =>
    intro i t s hle hs
    rw [pollLoop]
    have ht : t > stopPollDeadlineMs := by omega
    simp [hs, ht]
  | succ n ih =>
    intro i t s hle hs
    rw [pollLoop]
    by_cases ht : t > stopPollDeadlineMs
    · simp [hs, ht]
    · simp only [if_neg hs, if_neg ht, hq i]
      exact ih (i + 1) (t + stopPollIntervalMs) SvcState.stopPending
        (by simp only [stopPollIntervalMs] at *; omega) (by simp)

/-- If the k-th status query reports Stopped within the deadline (after
StopPending answers before it), the poll loop exits with success. -/
theorem pollLoop_reaches_stopped (q : Nat → Option SvcState) :
    ∀ (k i t : Nat) (s : SvcState), s ≠ SvcState.stopped →
      (∀ d, d < k → q (i + d) = some SvcState.stopPending) →
      q (i + k) = some SvcState.stopped →
      t + stopPollIntervalMs * k ≤ stopPollDeadlineMs →
      (pollLoop q i t s).2 = PollExit.reachedStopped := by
  intro k
  induction k with
  | zero =>
    intro i t s hs hpre hstop ht
    rw [pollLoop]
    have ht' : ¬ t > stopPollDeadlineMs := by omega
    have h0 : q i = some SvcState.stopped := by simpa using hstop
    simp only [if_neg hs, if_neg ht', h0]
    rw [pollLoop_stopped]
  | succ k ih =>
    intro i t s hs hpre hstop ht
    rw [pollLoop]
    have ht' : ¬ t > stopPollDeadlineMs := by
      have : 0 < stopPollIntervalMs * (k + 1) := by simp [stopPollIntervalMs]
      omega
    have h0 : q i = some SvcState.stopPending := by simpa using hpre 0 (Nat.succ_pos k)
    simp only [if_neg hs, if_neg ht', h0]
    refine ih (i + 1) (t + stopPollIntervalMs) SvcState.stopPending (by simp) ?_ ?_ ?_
    · intro d hd
      have := hpre (d + 1) (by omega)
      simpa [Nat.add_assoc, Nat.add_comm 1 d] using this
    · have : i + 1 + k = i + (k + 1) := by omega
      rw [this]
      exact hstop
    · have : stopPollIntervalMs * (k + 1) = stopPollIntervalMs * k + stopPollIntervalMs := by ring
      omega

/-- C7 (confirmed): once the stop control has been issued, `Stop` polls
the service state at the fixed 500 ms interval against the 30 s deadline
and the loop always terminates: an initial Stopped status or a status
query reporting Stopped within the deadline yields success; a state that
never converges (StopPending on every query) yields the Timeout error
rather than hanging; and in general the polling phase can only end in
success, the Timeout error, or a query error. -/
theorem C7_stop_poll (env : StopEnv) (hc : env.connectFails = false)
    (ho : env.openFails = false) (hctl : env.controlFails = false) :
    (env.initialState = SvcState.stopped → Stop env = StopRes.ok) ∧
    (∀ j, env.initialState ≠ SvcState.stopped →
      (∀ d, d < j → env.query d = some SvcState.stopPending) →
      env.query j = some SvcState.stopped →
      stopPollIntervalMs * j ≤ stopPollDeadlineMs →
      Stop env = StopRes.ok) ∧
    (env.initialState ≠ SvcState.stopped →
      (∀ i, env.query i = some SvcState.stopPending) →
      Stop env = StopRes.timeoutErr) ∧
    (Stop env = StopRes.ok ∨ Stop env = StopRes.timeoutErr ∨
      Stop env = StopRes.queryFailed) := by
  refine ⟨?_, ?_, ?_, ?_⟩
  · intro h
    simp [Stop, hc, ho, hctl, h, pollLoop_stopped]
  · intro j hs hpre hstop hdl
    have := pollLoop_reaches_stopped env.query j 0 0 env.initialState hs
      (by simpa using hpre) (by simpa using hstop) (by simpa using hdl)
    simp [Stop, hc, ho, hctl, this]
  · intro hs hq
    have := pollLoop_pending_timesOut env.query hq (stopPollDeadlineMs + 1) 0 0
      env.initialState (by omega) hs
    simp [Stop, hc, ho, hctl, this]
  · simp only [Stop, hc, ho, hctl, Bool.false_eq_true, if_false]
    rcases h : (pollLoop env.query 0 0 env.initialState).2 <;> simp

/-- Witness for C7 at a concrete input: a service stuck in StopPending on
every query makes `Stop` return the Timeout error. -/
theorem C7_stop_poll_witness : Stop stopPendingForever = StopRes.timeoutErr :=
  (C7_stop_poll stopPendingForever rfl rfl rfl).2.2.1 (by decide) (fun _ => rfl)

/-- The backup produced by `create` is always the pre-state snapshot,
whether or not the entry's processing failed. -/
theorem create_backup (env : RegEnv) (st : RegState) (e : Entry) :
    (create env st e).2.1 = backupOf st e := by
  simp only [create]
  split
  · rfl
  · split
    · rcases h : writeValue env (createKey st (e.root, e.path)) (e.root, e.path)
        e.name e.value e.type with ⟨st2, err⟩
      cases err <;> simp
    · rfl

/-- The snapshot keeps the entry's root, path and name unchanged. -/
theorem backupOf_entry_key (st : RegState) (e : Entry) :
    ((backupOf st e).entry.root, (backupOf st e).entry.path, (backupOf st e).entry.name)
      = (e.root, e.path, e.name) := by
  simp only [backupOf]
  split
  · split <;> rfl
  · rfl

/-- Per-entry accounting of the `CreateAll` loop: backups plus recorded
errors add up to the number of entries. -/
theorem createLoop_length (env : RegEnv) :
    ∀ (es : List Entry) (st : RegState),
      (createLoop env st es).2.1.length + (createLoop env st es).2.2 = es.length := by
  intro es
  induction es with
  | nil => intro st; simp [createLoop]
  | cons e es ih =>
    intro st
    rcases h : create env st e with ⟨st1, b, err⟩
    rcases h2 : createLoop env st1 es with ⟨st2, bs, n⟩
    have hih := ih st1
    rw [h2] at hih
    cases err <;> simp only [createLoop, h, h2, List.length_cons] <;> simp at hih ⊢ <;> omega

/-- The backups the `CreateAll` loop returns correspond, in order, to a
subsequence of the entries (projected to root/path/name). -/
theorem createLoop_sublist (env : RegEnv) :
    ∀ (es : List Entry) (st : RegState),
      ((createLoop env st es).2.1.map (fun b => (b.entry.root, b.entry.path, b.entry.name))).Sublist
        (es.map (fun e => (e.root, e.path, e.name))) := by
  intro es
  induction es with
  | nil => intro st; simp [createLoop]
  | cons e es ih =>
    intro st
    rcases h : create env st e with ⟨st1, b, err⟩
    have hb : b = backupOf st e := by
      have hc := create_backup env st e
      rw [h] at hc
      exact hc
    rcases h2 : createLoop env st1 es with ⟨st2, bs, n⟩
    have hih := ih st1
    rw [h2] at hih
    cases err with
    | none =>
      simp only [createLoop, h, h2, List.map_cons]
      have hkey := backupOf_entry_key st e
      have : (b.entry.root, b.entry.path, b.entry.name) = (e.root, e.path, e.name) := by
        rw [hb]; exact hkey
      simp only [this]
      exact List.Sublist.cons₂ _ hih
    | some err =>
      simp only [createLoop, h, h2, List.map_cons]
      exact hih.trans (List.sublist_cons_self _ _)

/-- When no entry fails, the loop's backups are exactly one per entry in
the same order (projected to root/path/name). -/
theorem createLoop_all_ok (env : RegEnv) :
    ∀ (es : List Entry) (st : RegState), (createLoop env st es).2.2 = 0 →
      (createLoop env st es).2.1.map (fun b => (b.entry.root, b.entry.path, b.entry.name))
        = es.map (fun e => (e.root, e.path, e.name)) := by
  intro es
  induction es with
  | nil => intro st _; simp [createLoop]
  | cons e es ih =>
    intro st h0
    rcases h : create env st e with ⟨st1, b, err⟩
    have hb : b = backupOf st e := by
      have hc := create_backup env st e
      rw [h] at hc
      exact hc
    rcases h2 : createLoop env st1 es with ⟨st2, bs, n⟩
    have hih := ih st1
    rw [h2] at hih
    cases err with
    | none =>
      simp only [createLoop, h, h2] at h0 ⊢
      simp only [List.map_cons]
      have hkey := backupOf_entry_key st e
      have hhd : (b.entry.root, b.entry.path, b.entry.name) = (e.root, e.path, e.name) := by
        rw [hb]; exact hkey
      rw [hhd, hih h0]
    | some err =>
      simp only [createLoop, h, h2] at h0
      simp at h0

/-- `CreateAll` always hands back the loop's backup set, whatever the
save step or the per-entry processing did. -/
theorem CreateAll_backups (env : RegEnv) (m : Manager) (w : World) :
    (CreateAll env m w).2.1 = (createLoop env w.reg m.entries).2.1 := by
  rcases h : createLoop env w.reg m.entries with ⟨st, bs, n⟩
  simp only [CreateAll, h, SaveBackups]
  split
  · simp
  · split <;> simp

/-- C3 (amended): `CreateAll` produces one Backup per SUCCESSFULLY
processed Entry, in entry order (the backups' root/path/name project to a
subsequence of the entries); entries whose processing fails contribute an
error, not a Backup, so backups plus errors account for all entries, and
only when no entry fails is the backup set 1:1 with the entries. -/
theorem C3_backup_per_entry (env : RegEnv) (m : Manager) (w : World) :
    (CreateAll env m w).2.1.length + (createLoop env w.reg m.entries).2.2
      = m.entries.length ∧
    ((CreateAll env m w).2.1.map
        (fun b => (b.entry.root, b.entry.path, b.entry.name))).Sublist
      (m.entries.map (fun e => (e.root, e.path, e.name))) ∧
    ((createLoop env w.reg m.entries).2.2 = 0 →
      (CreateAll env m w).2.1.map (fun b => (b.entry.root, b.entry.path, b.entry.name))
        = m.entries.map (fun e => (e.root, e.path, e.name))) := by
  rw [CreateAll_backups]
  exact ⟨createLoop_length env m.entries w.reg, createLoop_sublist env m.entries w.reg,
    createLoop_all_ok env m.entries w.reg⟩

/-- Witness for C3 at a concrete input: with no faults, the catalog's
9 entries produce exactly 9 backups in catalog order. -/
theorem C3_backup_per_entry_witness :
    (createLoop noFaults emptyWorld.reg (managerOf cfg0).entries).2.2 = 0 ∧
    (CreateAll noFaults (managerOf cfg0) emptyWorld).2.1.map
        (fun b => (b.entry.root, b.entry.path, b.entry.name))
      = (managerOf cfg0).entries.map (fun e => (e.root, e.path, e.name)) :=
  ⟨by decide, (C3_backup_per_entry noFaults (managerOf cfg0) emptyWorld).2.2 (by decide)⟩

/-- C4 (confirmed): when some entries fail during `CreateAll` but the
backup store works, the returned backup set is exactly the per-entry loop
output (backups of the succeeded entries), that backup set is persisted
to the backup file regardless of the per-entry failures, and the result
is an aggregate error carrying the number of failed entries. -/
theorem C4_partial_failure_persistence (env : RegEnv) (m : Manager) (w : World)
    (hsave : env.saveFails = false)
    (herr : 0 < (createLoop env w.reg m.entries).2.2) :
    (CreateAll env m w).2.1 = (createLoop env w.reg m.entries).2.1 ∧
    (CreateAll env m w).1.file
      = some (FileContent.good
          ((createLoop env w.reg m.entries).2.1.map toSerializable)) ∧
    (CreateAll env m w).2.2
      = some (RegErr.aggregate (createLoop env w.reg m.entries).2.2) := by
  refine ⟨CreateAll_backups env m w, ?_, ?_⟩ <;>
  · rcases h : createLoop env w.reg m.entries with ⟨st, bs, n⟩
    rw [h] at herr
    simp only at herr
    simp [CreateAll, h, SaveBackups, hsave, herr, Nat.pos_iff_ne_zero.mp herr]

/-- Witness for C4 at a concrete input: entry 4 of the 9-entry catalog
(TSAppAllowList) fails with a permission error; 8 backups are returned,
persisted, and the aggregate error reports 1 failure. -/
theorem C4_partial_failure_persistence_witness :
    (CreateAll failTSA (managerOf cfg0) emptyWorld).2.1
        = (createLoop failTSA emptyWorld.reg (managerOf cfg0).entries).2.1 ∧
    (CreateAll failTSA (managerOf cfg0) emptyWorld).1.file
      = some (FileContent.good
          ((createLoop failTSA emptyWorld.reg (managerOf cfg0).entries).2.1.map
            toSerializable)) ∧
    (CreateAll failTSA (managerOf cfg0) emptyWorld).2.2
      = some (RegErr.aggregate
          (createLoop failTSA emptyWorld.reg (managerOf cfg0).entries).2.2) :=
  C4_partial_failure_persistence failTSA (managerOf cfg0) emptyWorld rfl (by decide)

/-- Setting a name makes it readable. -/
theorem lookName_setName_self (vals : List (String × RegVal)) (n : String) (v : RegVal) :
    lookName (setName vals n v) n = some v := by
  induction vals with
  | nil => simp [setName, lookName]
  | cons p rest ih =>
    rcases p with ⟨m, w⟩
    by_cases h : m = n
    · simp [setName, lookName, h]
    · simpa [setName, lookName, h, Ne.symm h] using ih

/-- Setting a name leaves other names unchanged. -/
theorem lookName_setName_other (vals : List (String × RegVal)) (n n' : String)
    (v : RegVal) (h : n' ≠ n) : lookName (setName vals n v) n' = lookName vals n' := by
  have hne : ∀ m : String, m = n → (m == n') = false :=
    fun m hm => beq_eq_false_iff_ne.mpr (fun hh => h (hm ▸ hh).symm)
  induction vals with
  | nil => simp [setName, lookName, hne n rfl]
  | cons p rest ih =>
    rcases p with ⟨m, w⟩
    by_cases hm : m = n
    · subst hm
      simp [setName, lookName, List.find?, hne m rfl]
    · by_cases hm' : m = n'
      · subst hm'
        simp [setName, lookName, hm]
      · simpa [setName, lookName, hm, hm'] using ih

/-- Filtering a name out makes it unreadable. -/
theorem lookName_filter_self (vals : List (String × RegVal)) (n : String) :
    lookName (vals.filter (fun p => p.1 != n)) n = none := by
  induction vals with
  | nil => simp [lookName]
  | cons p rest ih =>
    rcases p with ⟨m, w⟩
    by_cases h : m = n
    · simpa [h] using ih
    · simp [lookName, h, ih]

/-- Filtering a name out leaves other names unchanged. -/
theorem lookName_filter_other (vals : List (String × RegVal)) (n n' : String)
    (h : n' ≠ n) : lookName (vals.filter (fun p => p.1 != n)) n' = lookName vals n' := by
  induction vals with
  | nil => simp
  | cons p rest ih =>
    rcases p with ⟨m, w⟩
    by_cases hm : m = n
    · subst hm
      simpa [lookName, Ne.symm h] using ih
    · by_cases hm' : m = n'
      · subst hm'
        simp [lookName, hm, ih]
      · simpa [lookName, hm, hm'] using ih

/-- Updating a key rewrites exactly that key's value list. -/
theorem lookupKey_updKey_self (st : RegState) (k : RegKey)
    (f : List (String × RegVal) → List (String × RegVal)) :
    lookupKey (updKey st k f) k = (lookupKey st k).map f := by
  induction st with
  | nil => simp [updKey, lookupKey]
  | cons p rest ih =>
    rcases p with ⟨k0, vs⟩
    by_cases h : k0 = k
    · simp [updKey, lookupKey, h]
    · simpa [updKey, lookupKey, h] using ih

/-- Updating a key leaves other keys unchanged. -/
theorem lookupKey_updKey_other (st : RegState) (k k' : RegKey)
    (f : List (String × RegVal) → List (String × RegVal)) (h : k' ≠ k) :
    lookupKey (updKey st k f) k' = lookupKey st k' := by
  induction st with
  | nil => simp [updKey, lookupKey]
  | cons p rest ih =>
    rcases p with ⟨k0, vs⟩
    by_cases hk : k0 = k
    · subst hk
      simpa [updKey, lookupKey, Ne.symm h] using ih
    · by_cases hk' : k0 = k'
      · subst hk'
        simp [updKey, lookupKey, hk]
      · simpa [updKey, lookupKey, hk, hk'] using ih

/-- Looking up a key in an extended registry. -/
theorem lookupKey_append_single (st : RegState) (k k' : RegKey)
    (vs : List (String × RegVal)) :
    lookupKey (st ++ [(k, vs)]) k'
      = ((lookupKey st k').orElse (fun _ => if k' = k then some vs else none)) := by
  induction st with
  | nil =>
    by_cases h : k' = k
    · simp [lookupKey, h]
    · simp [lookupKey, h, Ne.symm h]
  | cons p rest ih =>
    rcases p with ⟨k0, vs0⟩
    by_cases h : k0 = k'
    · simp [lookupKey, h]
    · simpa [lookupKey, h] using ih

/-- A key exists after `createKey`. -/
theorem keyExists_createKey_self (st : RegState) (k : RegKey) :
    keyExists (createKey st k) k = true := by
  unfold createKey
  by_cases h : keyExists st k
  · rw [if_pos h]
    exact h
  · rw [if_neg h]
    unfold keyExists
    rw [lookupKey_append_single]
    cases hl : lookupKey st k <;> simp [Option.orElse]

/-- `createKey` does not change the stored values of any key: a fresh key
comes up empty, existing value lists are untouched. -/
theorem lookupKey_createKey_of_absent (st : RegState) (k : RegKey)
    (h : keyExists st k = false) :
    lookupKey (createKey st k) k = some [] := by
  have h' : lookupKey st k = none := by
    unfold keyExists at h
    cases hl : lookupKey st k
    · rfl
    · rw [hl] at h
      simp at h
  unfold createKey
  rw [if_neg (by rw [h]; exact Bool.false_ne_true)]
  rw [lookupKey_append_single, h']
  simp [Option.orElse]

/-- `createKey` leaves other keys' lookups unchanged. -/
theorem lookupKey_createKey_other (st : RegState) (k k' : RegKey) (h : k' ≠ k) :
    lookupKey (createKey st k) k' = lookupKey st k' := by
  unfold createKey
  by_cases he : keyExists st k
  · rw [if_pos he]
  · rw [if_neg he, lookupKey_append_single, if_neg h]
    cases hl : lookupKey st k' <;> simp [Option.orElse]

/-- `updKey` (hence `setVal` and `delVal`) preserves key existence. -/
theorem keyExists_updKey (st : RegState) (k k' : RegKey)
    (f : List (String × RegVal) → List (String × RegVal)) :
    keyExists (updKey st k f) k' = keyExists st k' := by
  by_cases h : k' = k
  · subst h
    simp only [keyExists, lookupKey_updKey_self]
    cases lookupKey st k' <;> simp
  · simp [keyExists, lookupKey_updKey_other st k k' f h]

/-- Reading back a value just written (`setVal` on an existing key). -/
theorem getVal_setVal_self (st : RegState) (k : RegKey) (n : String) (v : RegVal)
    (h : keyExists st k = true) : getVal (setVal st k n v) k n = some v := by
  unfold keyExists at h
  unfold getVal setVal
  rw [lookupKey_updKey_self]
  cases hl : lookupKey st k
  · rw [hl] at h
    simp at h
  · simp [lookName_setName_self]

/-- `setVal` leaves every other (key, name) slot unchanged. -/
theorem getVal_setVal_other (st : RegState) (k k' : RegKey) (n n' : String)
    (v : RegVal) (h : ¬(k' = k ∧ n' = n)) :
    getVal (setVal st k n v) k' n' = getVal st k' n' := by
  unfold getVal setVal
  by_cases hk : k' = k
  · subst hk
    have hn : n' ≠ n := fun hn => h ⟨rfl, hn⟩
    rw [lookupKey_updKey_self]
    cases hl : lookupKey st k' <;> simp [lookName_setName_other _ _ _ _ hn]
  · rw [lookupKey_updKey_other st k k' _ hk]

/-- The deleted value slot reads back as absent. -/
theorem getVal_delVal_self (st : RegState) (k : RegKey) (n : String) :
    getVal (delVal st k n) k n = none := by
  unfold getVal delVal
  rw [lookupKey_updKey_self]
  cases hl : lookupKey st k <;> simp [lookName_filter_self]

/-- `delVal` leaves every other (key, name) slot unchanged. -/
theorem getVal_delVal_other (st : RegState) (k k' : RegKey) (n n' : String)
    (h : ¬(k' = k ∧ n' = n)) : getVal (delVal st k n) k' n' = getVal st k' n' := by
  unfold getVal delVal
  by_cases hk : k' = k
  · subst hk
    have hn : n' ≠ n := fun hn => h ⟨rfl, hn⟩
    rw [lookupKey_updKey_self]
    cases hl : lookupKey st k' <;> simp [lookName_filter_other _ _ _ hn]
  · rw [lookupKey_updKey_other st k k' _ hk]

/-- `createKey` on a present key is the identity. -/
theorem createKey_of_present (st : RegState) (k : RegKey)
    (h : keyExists st k = true) : createKey st k = st := by
  unfold createKey
  rw [if_pos h]

/-- A key existing before `createKey` still exists after it. -/
theorem keyExists_createKey_mono (st : RegState) (k0 k : RegKey)
    (h : keyExists st k = true) : keyExists (createKey st k0) k = true := by
  by_cases hk : k = k0
  · subst hk
    exact keyExists_createKey_self st k
  · unfold keyExists
    rw [lookupKey_createKey_other st k0 k hk]
    exact h

/-- `writeValue` either leaves the registry unchanged (on failure) or
performs exactly one `setVal` on the target slot. -/
theorem writeValue_state (env : RegEnv) (st : RegState) (k : RegKey) (n : String)
    (v : GoVal) (t : Nat) :
    (writeValue env st k n v t).1 = st ∨
    ∃ tv, (writeValue env st k n v t).1 = setVal st k n tv := by
  rcases v with s | n32 | n64 | bb | nf | _ <;>
    simp only [writeValue] <;>
    split_ifs <;>
    first
      | exact Or.inl rfl
      | exact Or.inr ⟨_, rfl⟩

/-- `writeValue` never creates or deletes keys. -/
theorem keyExists_writeValue (env : RegEnv) (st : RegState) (k0 : RegKey) (n : String)
    (v : GoVal) (t : Nat) (k : RegKey) :
    keyExists (writeValue env st k0 n v t).1 k = keyExists st k := by
  rcases writeValue_state env st k0 n v t with h | ⟨tv, h⟩ <;> rw [h]
  exact keyExists_updKey st k0 k _

/-- `removeValue` never creates or deletes keys. -/
theorem keyExists_removeValue (env : RegEnv) (st : RegState) (root : Nat)
    (path name : String) (k : RegKey) :
    keyExists (removeValue env st root path name).1 k = keyExists st k := by
  unfold removeValue
  cases h : lookupKey st (root, path)
  · rfl
  · split_ifs
    · rfl
    · exact keyExists_updKey st (root, path) k _

/-- `restore` never removes a key: any key present before restoring one
backup is still present afterwards (it only deletes named values or
rewrites them). -/
theorem restore_preserves_keyExists (env : RegEnv) (st : RegState) (b : Backup)
    (k : RegKey) (h : keyExists st k = true) :
    keyExists (restore env st b).1 k = true := by
  unfold restore
  split_ifs with h1 h2 h3 h4
  · rw [keyExists_removeValue]
    exact h
  · exact h
  · exact h
  · rw [keyExists_writeValue]
    exact keyExists_createKey_mono st (b.entry.root, b.entry.path) k h
  · exact keyExists_createKey_mono st (b.entry.root, b.entry.path) k h

/-- On a type-matching value with no write fault, `writeValue` records
exactly (declared type, value) in the target slot. -/
theorem writeValue_ok (env : RegEnv) (st : RegState) (k : RegKey) (n : String)
    (v : GoVal) (t : Nat) (hsf : env.setValueFails k.1 k.2 n = false)
    (hv : valueMatchesType { root := k.1, path := k.2, name := n, value := v, type := t }
            = true) :
    writeValue env st k n v t = (setVal st k n (t, v), none) := by
  rcases v with s | n32 | n64 | bb | nf | _ <;>
    simp only [valueMatchesType, Bool.or_eq_true, beq_iff_eq] at hv
  · rcases hv with h1 | h1 <;> subst h1 <;>
      simp [writeValue, SZ, EXPAND_SZ, hsf]
  · subst hv
    simp [writeValue, DWORD, SZ, EXPAND_SZ, hsf]
  · subst hv
    simp [writeValue, QWORD, SZ, EXPAND_SZ, DWORD, hsf]
  · subst hv
    simp [writeValue, BINARY, SZ, EXPAND_SZ, DWORD, QWORD, hsf]
  · exact absurd hv Bool.false_ne_true
  · exact absurd hv Bool.false_ne_true

/-- A fault-free `create` of a named, type-matching entry: the backup is
the pre-state snapshot and the state gains exactly the written value
under the (created) key. -/
theorem create_ok (env : RegEnv) (st : RegState) (e : Entry)
    (hcf : env.createKeyFails e.root e.path = false)
    (hsf : env.setValueFails e.root e.path e.name = false)
    (hv : valueMatchesType e = true) (hn : e.name ≠ "") :
    create env st e
      = (setVal (createKey st (e.root, e.path)) (e.root, e.path) e.name (e.type, e.value),
         backupOf st e, none) := by
  unfold create
  rw [if_neg (by rw [hcf]; exact Bool.false_ne_true),
    if_pos (bne_iff_ne.mpr hn)]
  rw [writeValue_ok env _ (e.root, e.path) e.name e.value e.type hsf hv]

/-- If the value name or value slot read matches a well-formed stored
value, the type-specific accessor returns it unchanged. -/
theorem readValue_wf (vals : List (String × RegVal)) (n : String) (t : Nat) (v : GoVal)
    (h : lookName vals n = some (t, v)) (hwf : wfRegVal (t, v) = true) :
    readValue vals n t = v := by
  unfold readValue
  rw [h]
  rcases v with s | n32 | n64 | bb | nf | _ <;>
    simp only [wfRegVal, Bool.or_eq_true, Bool.and_eq_true, beq_iff_eq,
      decide_eq_true_eq] at hwf
  · rcases hwf with h1 | h1 <;> subst h1 <;> simp [SZ, EXPAND_SZ]
  · obtain ⟨h1, h2⟩ := hwf
    subst h1
    simp only [DWORD, SZ, EXPAND_SZ]
    norm_num
    omega
  · obtain ⟨h1, _⟩ := hwf
    subst h1
    simp [QWORD, SZ, EXPAND_SZ, DWORD]
  · subst hwf
    simp [BINARY, SZ, EXPAND_SZ, DWORD, QWORD]
  · exact absurd hwf Bool.false_ne_true
  · exact absurd hwf Bool.false_ne_true

/-- C2 (amended): for an Entry whose key does not exist before ApplyAll
(applied on its own, with no OS faults), the Backup records
`existed = false`, and Restore deletes only the named value: the value
reads back as absent, every other (key, name) slot is untouched, and
`restore` never removes any key — in particular a pre-existing key
holding other values survives.  But the key itself is NOT absent
afterwards: the key created by ApplyAll remains (empty), which is the
correction to the claim. -/
theorem C2_roundtrip (env : RegEnv) (e : Entry) (w : World) (p : String)
    (hk : keyExists w.reg (e.root, e.path) = false)
    (hcf : env.createKeyFails e.root e.path = false)
    (hsf : env.setValueFails e.root e.path e.name = false)
    (hdf : env.deleteValueFails e.root e.path e.name = false)
    (hv : valueMatchesType e = true) (hn : e.name ≠ "") :
    (CreateAll env ⟨[e], p⟩ w).2.1 = [{ entry := e, existed := false }] ∧
    getVal (applyThenRestore env ⟨[e], p⟩ w) (e.root, e.path) e.name = none ∧
    keyExists (applyThenRestore env ⟨[e], p⟩ w) (e.root, e.path) = true ∧
    (∀ k n, ¬(k = (e.root, e.path) ∧ n = e.name) →
      getVal (applyThenRestore env ⟨[e], p⟩ w) k n
        = getVal (CreateAll env ⟨[e], p⟩ w).1.reg k n) ∧
    (∀ (st : RegState) (b : Backup) (k : RegKey),
      keyExists st k = true → keyExists (restore env st b).1 k = true) := by
  have hb : backupOf w.reg e = { entry := e, existed := false } := by
    unfold backupOf
    have hl : lookupKey w.reg (e.root, e.path) = none := by
      unfold keyExists at hk
      cases hl : lookupKey w.reg (e.root, e.path)
      · rfl
      · rw [hl] at hk
        simp at hk
    rw [hl]
  have hcr := create_ok env w.reg e hcf hsf hv hn
  set k : RegKey := (e.root, e.path) with hkdef
  set st1 : RegState := setVal (createKey w.reg k) k e.name (e.type, e.value) with hst1
  have hloop : createLoop env w.reg [e] = (st1, [{ entry := e, existed := false }], 0) := by
    simp only [createLoop, hcr, hb]
  have hCAreg : (CreateAll env ⟨[e], p⟩ w).1.reg = st1 := by
    by_cases hs : env.saveFails <;> simp [CreateAll, hloop, SaveBackups, hs]
  have hCAbs : (CreateAll env ⟨[e], p⟩ w).2.1 = [{ entry := e, existed := false }] := by
    by_cases hs : env.saveFails <;> simp [CreateAll, hloop, SaveBackups, hs]
  have hk1 : keyExists st1 k = true := by
    rw [hst1]
    unfold setVal
    rw [keyExists_updKey]
    exact keyExists_createKey_self w.reg k
  have hrest : restore env st1 { entry := e, existed := false }
      = (delVal st1 k e.name, none) := by
    unfold restore
    rw [if_pos (by simp)]
    simp only
    rw [if_pos (bne_iff_ne.mpr hn)]
    unfold removeValue
    have : lookupKey st1 (e.root, e.path) = lookupKey st1 k := rfl
    rw [this]
    unfold keyExists at hk1
    cases hl1 : lookupKey st1 k
    · rw [hl1] at hk1
      simp at hk1
    · rw [if_neg (by rw [hdf]; exact Bool.false_ne_true)]
  have hfinal : applyThenRestore env ⟨[e], p⟩ w = delVal st1 k e.name := by
    unfold applyThenRestore
    rw [hCAreg, hCAbs]
    simp only [Restore, restoreLoop, hrest]
    rfl
  refine ⟨hCAbs, ?_, ?_, ?_, ?_⟩
  · rw [hfinal]
    exact getVal_delVal_self st1 k e.name
  · rw [hfinal]
    unfold delVal
    rw [keyExists_updKey]
    exact hk1
  · intro k' n' hne
    rw [hfinal, hCAreg]
    exact getVal_delVal_other st1 k k' e.name n' hne
  · intro st b kk h
    exact restore_preserves_keyExists env st b kk h

/-- Witness for C2 at a concrete input: the catalog's InstallPath entry
applied to the empty registry — the backup records `existed = false`,
the value is gone after Restore, but the key is still present. -/
theorem C2_roundtrip_witness :
    (CreateAll noFaults ⟨[entryInstallPath], "p"⟩ emptyWorld).2.1
        = [{ entry := entryInstallPath, existed := false }] ∧
    getVal (applyThenRestore noFaults ⟨[entryInstallPath], "p"⟩ emptyWorld)
      (entryInstallPath.root, entryInstallPath.path) entryInstallPath.name = none ∧
    keyExists (applyThenRestore noFaults ⟨[entryInstallPath], "p"⟩ emptyWorld)
      (entryInstallPath.root, entryInstallPath.path) = true := by
  have h := C2_roundtrip noFaults entryInstallPath emptyWorld "p" (by decide) rfl rfl rfl
    (by decide) (by decide)
  exact ⟨h.1, h.2.1, h.2.2.1⟩

/-- A well-formed stored value passes the write-side type assertion for
its own stored type. -/
theorem wf_implies_matches (r : Nat) (p n : String) (t : Nat) (v : GoVal)
    (hwf : wfRegVal (t, v) = true) :
    valueMatchesType { root := r, path := p, name := n, value := v, type := t } = true := by
  rcases v with s | n32 | n64 | bb | nf | _ <;>
    simp only [wfRegVal, valueMatchesType, Bool.or_eq_true, Bool.and_eq_true,
      beq_iff_eq, decide_eq_true_eq] at hwf ⊢
  · exact hwf
  · exact hwf.1
  · exact hwf.1
  · exact hwf
  · exact absurd hwf Bool.false_ne_true
  · exact absurd hwf Bool.false_ne_true

/-- A well-formed stored value is never Go `nil`. -/
theorem wf_ne_vnil (t : Nat) (v : GoVal) (hwf : wfRegVal (t, v) = true) :
    v ≠ GoVal.vnil := by
  intro h
  subst h
  simp [wfRegVal] at hwf

/-- C5 (amended): for a key/value that exists before ApplyAll holding `V`
STORED WITH THE ENTRY'S DECLARED ValueType, ApplyAll makes the key hold
the catalog entry's new value (with its declared type), and Restore puts
back exactly `V` with that original ValueType.  (The correction: when the
pre-existing value's stored type differs from the entry's declared type,
the accessor used for the backup fails, nil is recorded, and the original
is NOT restored — see the counterexample.) -/
theorem C5_value_preservation (env : RegEnv) (e : Entry) (w : World) (p : String)
    (V : GoVal)
    (hpre : getVal w.reg (e.root, e.path) e.name = some (e.type, V))
    (hwf : wfRegVal (e.type, V) = true)
    (hv : valueMatchesType e = true)
    (hn : e.name ≠ "")
    (hcf : env.createKeyFails e.root e.path = false)
    (hsf : env.setValueFails e.root e.path e.name = false) :
    getVal (CreateAll env ⟨[e], p⟩ w).1.reg (e.root, e.path) e.name
      = some (e.type, e.value) ∧
    getVal (applyThenRestore env ⟨[e], p⟩ w) (e.root, e.path) e.name
      = some (e.type, V) := by
  set k : RegKey := (e.root, e.path) with hkdef
  obtain ⟨vals, hlk, hln⟩ :
      ∃ vals, lookupKey w.reg k = some vals ∧ lookName vals e.name = some (e.type, V) := by
    unfold getVal at hpre
    cases hl : lookupKey w.reg k
    · rw [hl] at hpre
      simp at hpre
    · rw [hl] at hpre
      exact ⟨_, rfl, by simpa using hpre⟩
  have hkeyex : keyExists w.reg k = true := by
    unfold keyExists
    rw [hlk]
    rfl
  have hb : backupOf w.reg e = { entry := { e with value := V }, existed := true } := by
    unfold backupOf
    simp only [hlk]
    rw [if_pos (bne_iff_ne.mpr hn), readValue_wf vals e.name e.type V hln hwf]
  have hcr := create_ok env w.reg e hcf hsf hv hn
  rw [createKey_of_present w.reg k hkeyex] at hcr
  set st1 : RegState := setVal w.reg k e.name (e.type, e.value) with hst1
  have hk1 : keyExists st1 k = true := by
    rw [hst1]
    unfold setVal
    rw [keyExists_updKey]
    exact hkeyex
  have hloop : createLoop env w.reg [e]
      = (st1, [{ entry := { e with value := V }, existed := true }], 0) := by
    simp only [createLoop, hcr, hb]
  have hCAreg : (CreateAll env ⟨[e], p⟩ w).1.reg = st1 := by
    by_cases hs : env.saveFails <;> simp [CreateAll, hloop, SaveBackups, hs]
  have hCAbs : (CreateAll env ⟨[e], p⟩ w).2.1
      = [{ entry := { e with value := V }, existed := true }] := by
    by_cases hs : env.saveFails <;> simp [CreateAll, hloop, SaveBackups, hs]
  have hrest : restore env st1 { entry := { e with value := V }, existed := true }
      = (setVal st1 k e.name (e.type, V), none) := by
    unfold restore
    rw [if_neg (by simp)]
    rw [if_neg (by rw [hcf]; exact Bool.false_ne_true)]
    simp only
    rw [createKey_of_present st1 k hk1]
    rw [if_pos (by
      have h1 : (e.name != "") = true := bne_iff_ne.mpr hn
      have h2 : (V == GoVal.vnil) = false :=
        beq_eq_false_iff_ne.mpr (wf_ne_vnil e.type V hwf)
      simp [h1, h2])]
    exact writeValue_ok env st1 k e.name V e.type hsf
      (wf_implies_matches e.root e.path e.name e.type V hwf)
  have hfinal : applyThenRestore env ⟨[e], p⟩ w = setVal st1 k e.name (e.type, V) := by
    unfold applyThenRestore
    rw [hCAreg, hCAbs]
    simp only [Restore, restoreLoop, hrest]
    rfl
  constructor
  · rw [hCAreg, hst1]
    exact getVal_setVal_self w.reg k e.name (e.type, e.value) hkeyex
  · rw [hfinal]
    exact getVal_setVal_self st1 k e.name (e.type, V) hk1

/-- Witness for C5 at a concrete input: a pre-existing DWORD `ServerPort`
value `77` is overwritten with `8085` by ApplyAll and restored to exactly
`(DWORD, 77)` by Restore. -/
theorem C5_value_preservation_witness :
    getVal (CreateAll noFaults ⟨[entryServerPort], "p"⟩ wDwordPre).1.reg
        (entryServerPort.root, entryServerPort.path) entryServerPort.name
      = some (entryServerPort.type, entryServerPort.value) ∧
    getVal (applyThenRestore noFaults ⟨[entryServerPort], "p"⟩ wDwordPre)
        (entryServerPort.root, entryServerPort.path) entryServerPort.name
      = some (entryServerPort.type, GoVal.u32 77) :=
  C5_value_preservation noFaults entryServerPort wDwordPre "p" (GoVal.u32 77)
    (by decide) (by decide) (by decide) (by decide) rfl rfl

/-- C1 (amended): once the Entry Catalog has been applied, a fatal
failure at the service-manager-connect step, the already-exists check, or
the create-service step makes `Install` invoke the registry `RemoveAll`
compensating rollback and return the corresponding fatal error, and a
failure of the first service start triggers no rollback with `Install`
still returning success.  The rollback, however, does NOT restore the
pre-Install registry state (see the counterexample): from a clean
registry it removes values recorded as not-previously-existing — e.g.
`InstallPath` is gone and the per-user key is pruned — while entries that
shared a key with an earlier catalog entry survive. -/
theorem C1_install_rollback (renv : RegEnv) (senv : SvcEnv) (cfg : Config) (w : World)
    (hexe : senv.exeFails = false) (hmk : senv.mkdirFails = false) :
    (senv.connectFails = true →
      (Install renv senv cfg w).2.2 = some InstallErr.connection ∧
      Ev.removeAllCall ∈ (Install renv senv cfg w).2.1) ∧
    (senv.connectFails = false → senv.serviceExists = true →
      (Install renv senv cfg w).2.2 = some InstallErr.alreadyExists ∧
      Ev.removeAllCall ∈ (Install renv senv cfg w).2.1) ∧
    (senv.connectFails = false → senv.serviceExists = false →
      senv.createServiceFails = true →
      (Install renv senv cfg w).2.2 = some InstallErr.creation ∧
      Ev.removeAllCall ∈ (Install renv senv cfg w).2.1) ∧
    (senv.connectFails = false → senv.serviceExists = false →
      senv.createServiceFails = false →
      (Install renv senv cfg w).2.2 = none ∧
      Ev.removeAllCall ∉ (Install renv senv cfg w).2.1) ∧
    (getVal (Install noFaults svcCreateFails cfg0 emptyWorld).1.reg rdpKey "InstallPath"
        = none ∧
     keyExists (Install noFaults svcCreateFails cfg0 emptyWorld).1.reg
        (CURRENT_USER, "SOFTWARE\\RDPLauncher\\User") = false) := by
  refine ⟨?_, ?_, ?_, ?_, by decide⟩
  · intro h
    simp [Install, hexe, hmk, h]
  · intro h1 h2
    simp [Install, hexe, hmk, h1, h2]
  · intro h1 h2 h3
    simp [Install, hexe, hmk, h1, h2, h3]
  · intro h1 h2 h3
    simp [Install, hexe, hmk, h1, h2, h3]

/-- Witness for C1 at a concrete input: with a failing `CreateService`
step, `Install` returns the creation error and its trace shows the
`RemoveAll` rollback call. -/
theorem C1_install_rollback_witness :
    (Install noFaults svcCreateFails cfg0 emptyWorld).2.2 = some InstallErr.creation ∧
    Ev.removeAllCall ∈ (Install noFaults svcCreateFails cfg0 emptyWorld).2.1 :=
  (C1_install_rollback noFaults svcCreateFails cfg0 emptyWorld rfl rfl).2.2.1 rfl rfl rfl

/-- C9 (amended): `Install` ignores the port parse error entirely — it
reports no error for an invalid port configuration — but the substituted
value depends on HOW the parse fails: a non-numeric string yields a
ServerPort of 0 (written as DWORD 0 to the registry), while a numeric
string exceeding 32 bits yields `2^32 - 1`, Go's `ParseUint` range-error
result, not 0. -/
theorem C9_invalid_port (cfg : Config) (renv : RegEnv) (senv : SvcEnv) (w : World)
    (hbad : isDecDigits cfg.serverPort = false)
    (hexe : senv.exeFails = false) (hmk : senv.mkdirFails = false)
    (hconn : senv.connectFails = false) (hex : senv.serviceExists = false)
    (hcs : senv.createServiceFails = false) :
    (goParseUint32 cfg.serverPort).1 = 0 ∧
    (goParseUint32 cfg.serverPort).2 = some ParseFail.notNumeric ∧
    (managerOf cfg).entries.get? 1
      = some { root := LOCAL_MACHINE, path := "SOFTWARE\\RDPLauncher",
               name := "ServerPort", value := GoVal.u32 0, type := DWORD } ∧
    (Install renv senv cfg w).2.2 = none ∧
    (∀ s, isDecDigits s = true → 2 ^ 32 ≤ digitsToNat s →
      (goParseUint32 s).1 = 2 ^ 32 - 1) ∧
    getVal (Install noFaults svcOk cfgBadPort emptyWorld).1.reg rdpKey "ServerPort"
      = some (DWORD, GoVal.u32 0) := by
  refine ⟨?_, ?_, ?_, ?_, ?_, by decide⟩
  · simp [goParseUint32, hbad]
  · simp [goParseUint32, hbad]
  · simp [managerOf, NewManager, goParseUint32, hbad]
  · simp [Install, hexe, hmk, hconn, hex, hcs]
  · intro s hs hrange
    simp only [goParseUint32, hs, if_true]
    rw [if_neg (by omega)]

/-- Witness for C9 at a concrete input: the non-numeric port string
`"abc"` gives a catalog ServerPort of 0 and an error-free `Install`. -/
theorem C9_invalid_port_witness :
    (goParseUint32 cfgBadPort.serverPort).1 = 0 ∧
    (managerOf cfgBadPort).entries.get? 1
      = some { root := LOCAL_MACHINE, path := "SOFTWARE\\RDPLauncher",
               name := "ServerPort", value := GoVal.u32 0, type := DWORD } ∧
    (Install noFaults svcOk cfgBadPort emptyWorld).2.2 = none := by
  have h := C9_invalid_port cfgBadPort noFaults svcOk emptyWorld (by decide)
    rfl rfl rfl rfl rfl
  exact ⟨h.1, h.2.2.1, h.2.2.2.1⟩

end Theorems

end RDPLauncher
